import Mathlib

/-!
Shallow embedding of the file-transfer inference and tracking engine of
`arr-monitor.py` (single-file Python program).  Machine integers are modelled
as `Int` (Python integers are unbounded); wall-clock times and derived float
quantities (speed, percent) are modelled as exact rationals `ℚ` — the Python
code uses IEEE doubles, and the single float constant involved, the expansion
threshold `1.1`, is modelled as the exact rational `11/10` via integer
cross-multiplication.  Python `dict`s (which preserve insertion order and keep
a key's original slot on overwrite) are modelled as association lists
`List (String × _)` with the corresponding insert/lookup operations.
-/

set_option maxHeartbeats 1000000

namespace ArrMonitor

/-- Access mode extracted from the low two bits of the descriptor flags:
`O_RDONLY = 0`, `O_WRONLY = 1`, `O_RDWR = 2` (`access_mode = flags & 0o3`). -/
inductive AccessMode
  | read
  | write
  | readWrite
deriving DecidableEq

/-- `ReadFileInfo` named tuple: size and resolved path of a file the process
has open read-only. -/
structure ReadFileInfo where
  size : Int
  path : String
deriving DecidableEq

/-- `Config.EPISODE_CACHE_MAX_SIZE = 1000`.  The cache operations below take
the capacity as an explicit parameter (it is static configuration); the
pipeline instantiates it with this constant. -/
def EPISODE_CACHE_MAX_SIZE : Nat := 1000

/-- `IGNORE_EXTENSIONS`: write-side extensions that are never treated as
transfer destinations. -/
def IGNORE_EXTENSIONS : List String :=
  [".db", ".db-wal", ".db-shm", ".db-journal",
   ".log", ".txt", ".xml", ".json", ".conf",
   ".zip", ".dll"]

/-- Python `str.lower()` (ASCII case mapping, which is all the tool's
filenames exercise). -/
def strLower (s : String) : String :=
  String.mk (s.data.map Char.toLower)

/-- `pathlib.Path(p).name`: the final path component, i.e. the characters
after the last slash (the scanner only sees resolved absolute paths). -/
def pathName (p : String) : String :=
  String.mk (p.data.foldl (fun acc c => if c = '/' then [] else acc ++ [c]) [])

/-- Index of the last occurrence of a character in a list, if any. -/
def lastIdxOf (c : Char) (l : List Char) : Option Nat :=
  match l.reverse.findIdx? (fun d => d == c) with
  | some j => some (l.length - 1 - j)
  | none => none

/-- `pathlib.Path(p).suffix`: the extension of the final component, including
the leading dot; empty unless the last dot sits strictly inside the name
(`0 < i < len(name) - 1` in the pathlib source). -/
def pathSuffix (p : String) : String :=
  let n := (pathName p).data
  match lastIdxOf '.' n with
  | some i => if 0 < i ∧ i < n.length - 1 then String.mk (n.drop i) else ""
  | none => ""

/-- `should_ignore_file`: `Path(filepath).suffix.lower() in IGNORE_EXTENSIONS`. -/
def should_ignore_file (filepath : String) : Bool :=
  IGNORE_EXTENSIONS.contains (strLower (pathSuffix filepath))

/-- Decimal value of a digit run, as produced by Python `int` on a captured
group of `\d+`. -/
def digitsToNat (l : List Char) : Nat :=
  l.foldl (fun a c => a * 10 + (c.toNat - '0'.toNat)) 0

/-- Attempt of the regex `[Ss](\d+)[Ee](\d+)` at a fixed position, after the
`[Ss]` character has been consumed.  `\d+` is greedy and deterministic here:
no digit can satisfy `[Ee]`, so backtracking never helps. -/
def tryAtSE (l : List Char) : Option (Nat × Nat) :=
  let (d1, r1) := l.span Char.isDigit
  if d1.isEmpty then none
  else
    match r1 with
    | [] => none
    | e :: r2 =>
      if e == 'E' || e == 'e' then
        let (d2, _) := r2.span Char.isDigit
        if d2.isEmpty then none else some (digitsToNat d1, digitsToNat d2)
      else none

/-- `re.search` of `[Ss](\d+)[Ee](\d+)` (pattern `S01E05`): leftmost match. -/
def searchSE : List Char → Option (Nat × Nat)
  | [] => none
  | c :: rest =>
    match (if c == 'S' || c == 's' then tryAtSE rest else none) with
    | some r => some r
    | none => searchSE rest

/-- Attempt of the regex `(\d+)[xX](\d+)` at a fixed position. -/
def tryAtX (l : List Char) : Option (Nat × Nat) :=
  let (d1, r1) := l.span Char.isDigit
  if d1.isEmpty then none
  else
    match r1 with
    | [] => none
    | x :: r2 =>
      if x == 'x' || x == 'X' then
        let (d2, _) := r2.span Char.isDigit
        if d2.isEmpty then none else some (digitsToNat d1, digitsToNat d2)
      else none

/-- `re.search` of `(\d+)[xX](\d+)` (pattern `1x05`): leftmost match. -/
def searchX : List Char → Option (Nat × Nat)
  | [] => none
  | c :: rest =>
    match tryAtX (c :: rest) with
    | some r => some r
    | none => searchX rest

/-- Attempt of `[Ee]pisode\s*(\d+)` at a fixed position. -/
def tryEpisodeAt (l : List Char) : Option Nat :=
  match l with
  | [] => none
  | c :: rest =>
    if (c == 'E' || c == 'e') && rest.take 6 == "pisode".data then
      let r := rest.drop 6
      let (_, r1) := r.span Char.isWhitespace
      let (d2, _) := r1.span Char.isDigit
      if d2.isEmpty then none else some (digitsToNat d2)
    else none

/-- The `.*[Ee]pisode\s*(\d+)` part of the verbose pattern: greedy `.*` picks
the last position (before any newline, which `.` cannot cross) at which
`[Ee]pisode\s*(\d+)` matches. -/
def lastEpisodeGo : List Char → Option Nat → Option Nat
  | [], acc => acc
  | c :: rest, acc =>
    if c == '\n' then acc
    else
      lastEpisodeGo rest
        (match tryEpisodeAt (c :: rest) with
         | some d => some d
         | none => acc)

/-- Attempt of `[Ss]eason\s*(\d+).*[Ee]pisode\s*(\d+)` at a fixed position. -/
def tryAtSeason (l : List Char) : Option (Nat × Nat) :=
  match l with
  | [] => none
  | c :: rest =>
    if (c == 'S' || c == 's') && rest.take 5 == "eason".data then
      let r := rest.drop 5
      let (_, r1) := r.span Char.isWhitespace
      let (d1, r2) := r1.span Char.isDigit
      if d1.isEmpty then none
      else
        match lastEpisodeGo r2 none with
        | some d2 => some (digitsToNat d1, d2)
        | none => none
    else none

/-- `re.search` of `[Ss]eason\s*(\d+).*[Ee]pisode\s*(\d+)`: leftmost match. -/
def searchSeason : List Char → Option (Nat × Nat)
  | [] => none
  | c :: rest =>
    match tryAtSeason (c :: rest) with
    | some r => some r
    | none => searchSeason rest

/-- `extract_episode_info`: try the three `EPISODE_PATTERNS` in order, first
match wins; `None` when no pattern matches. -/
def extract_episode_info (filename : String) : Option (Nat × Nat) :=
  match searchSE filename.data with
  | some r => some r
  | none =>
    match searchX filename.data with
    | some r => some r
    | none => searchSeason filename.data

/-- The episode cache: Python dict from filename to the memoized
`extract_episode_info` result (storing `none` as the no-match sentinel). -/
abbrev EpisodeCache := List (String × Option (Nat × Nat))

/-- Python `k in d` on an insertion-ordered dict. -/
def dictHas {α : Type} (l : List (String × α)) (k : String) : Bool :=
  l.any (fun p => p.1 == k)

/-- Python `d[k]` (as an option) on an insertion-ordered dict. -/
def dictGet? {α : Type} (l : List (String × α)) (k : String) : Option α :=
  (l.find? (fun p => p.1 == k)).map (fun p => p.2)

/-- Python `d[k] = v`: overwrite in place (keeping the key's original slot)
when the key is present, append otherwise. -/
def dictInsert {α : Type} (l : List (String × α)) (k : String) (v : α) :
    List (String × α) :=
  if dictHas l k then l.map (fun p => if p.1 == k then (k, v) else p)
  else l ++ [(k, v)]

/-- The eviction-then-assign sequence guarding every episode-cache write:
`if len(cache) >= cap: cache.pop(next(iter(cache)))` followed by
`cache[k] = v`.  Call sites only reach this when `k` is absent, so the
assignment is an append. -/
def cachePut (cap : Nat) (c : EpisodeCache) (k : String)
    (v : Option (Nat × Nat)) : EpisodeCache :=
  (if cap ≤ c.length then c.tail else c) ++ [(k, v)]

/-- The `if name not in episode_cache: ... episode_cache[name] = extract(...)`
block: ensure a filename's episode key is cached, computing it on a miss
(with eviction of the oldest entry when the cache is full). -/
def cacheEnsure (cap : Nat) (c : EpisodeCache) (k : String) : EpisodeCache :=
  if dictHas c k then c else cachePut cap c k (extract_episode_info k)

/-- The episode-matching loop of `find_matching_source`: scan the sources in
order, lazily caching each one's episode key, and return the first source
whose cached key equals the destination's key. -/
def scanEpisode (cap : Nat) (ep : Nat × Nat) :
    List (String × Int) → EpisodeCache → Option Int × EpisodeCache
  | [], c => (none, c)
  | (srcName, srcSize) :: rest, c =>
    let c1 := cacheEnsure cap c srcName
    if dictGet? c1 srcName == some (some ep) then (some srcSize, c1)
    else scanEpisode cap ep rest c1

/-- `find_matching_source(dest_filename, read_files, episode_cache)`:
exact case-insensitive filename match first; otherwise episode-pattern
matching through the cache; `None` when neither applies.  The Python function
mutates the cache in place; here the updated cache is returned. -/
def find_matching_source (cap : Nat) (dest_filename : String)
    (read_files : List (String × Int)) (episode_cache : EpisodeCache) :
    Option Int × EpisodeCache :=
  let dest_lower := strLower dest_filename
  match read_files.find? (fun p => strLower p.1 == dest_lower) with
  | some p => (some p.2, episode_cache)
  | none =>
    let c1 := cacheEnsure cap episode_cache dest_filename
    match dictGet? c1 dest_filename with
    | some (some ep) => scanEpisode cap ep read_files c1
    | _ => (none, c1)

/-- `FileTransferInfo`: per-transfer tracked state.  Times are rationals
(`time.time()` values); `speed` is bytes per second. -/
structure FileTransferInfo where
  fd : String
  filepath : String
  source_filepath : Option String
  position : Int
  size : Int
  target_size : Int
  initial_target : Int
  last_position : Int
  last_time : ℚ
  speed : ℚ
  first_seen : ℚ
deriving DecidableEq

/-- `FileTransferInfo.__init__`: `target_size` defaults to `size` when no
estimate was supplied; `last_position` starts at `position`; `speed` at 0. -/
def FileTransferInfo.init (fd filepath : String) (position size : Int)
    (target_size : Option Int) (source_filepath : Option String) (now : ℚ) :
    FileTransferInfo :=
  let t := target_size.getD size
  { fd := fd
    filepath := filepath
    source_filepath := source_filepath
    position := position
    size := size
    target_size := t
    initial_target := t
    last_position := position
    last_time := now
    speed := 0
    first_seen := now }

/-- `FileTransferInfo.update(position, size)`: negative sizes are rejected
up front; the effective position is the size; the target expands only when
the position exceeds it by more than the factor
`Config.TARGET_SIZE_EXPANSION_THRESHOLD = 1.1` (modelled as the exact
rational `11/10`, i.e. `size * 10 > target_size * 11`); speed is recomputed
only when time passed and bytes were written.  `now` is the value
`time.time()` returns during the call. -/
def FileTransferInfo.update (self : FileTransferInfo) (position size : Int)
    (now : ℚ) : FileTransferInfo :=
  if size < 0 then self
  else
    let time_delta := now - self.last_time
    let actual_position := size
    let expanded :=
      if actual_position * 10 > self.target_size * 11 then
        { self with target_size := actual_position }
      else self
    let bytes_written := actual_position - expanded.last_position
    let withSpeed :=
      if time_delta > 0 ∧ bytes_written > 0 then
        { expanded with speed := (bytes_written : ℚ) / time_delta }
      else expanded
    { withSpeed with
        last_position := actual_position
        position := actual_position
        size := size
        last_time := now }

/-- `FileTransferInfo.percent`: clamped completion percentage, 0 when the
target size is not positive. -/
def FileTransferInfo.percent (self : FileTransferInfo) : ℚ :=
  if self.target_size > 0 then
    min ((self.position : ℚ) / (self.target_size : ℚ) * 100) 100
  else 0

/-- One successfully statted regular-file descriptor of a snapshot, after
symlink resolution; descriptors that fail to resolve or stat are skipped by
the scanner and so never reach the core, hence are not modelled. -/
structure FdEntry where
  fd : String
  path : String
  size : Int
  mode : AccessMode
deriving DecidableEq

/-- The mutable state threaded through the single enumeration pass of
`get_open_files`: read files seen so far, write records built so far, and
the episode cache. -/
structure ScanState where
  read_files : List (String × ReadFileInfo)
  open_files : List (String × FileTransferInfo)
  episode_cache : EpisodeCache
deriving DecidableEq

/-- `max(info.size for info in read_files.values())` (callers guarantee the
map is non-empty; the empty case yields an unused default). -/
def maxSourceSize : List (String × ReadFileInfo) → Int
  | [] => 0
  | p :: rest => rest.foldl (fun a q => max a q.2.size) p.2.size

/-- The write-descriptor branch of `get_open_files` (after the ignore-list
check): run the source matcher over the read files collected so far, resolve
the matched size back to a source path by scanning for the first read file of
that size, fall back to the largest source (again resolving its path) and
then to `max(file_size, 1)`, and build the `FileTransferInfo`. -/
def processWriteFile (cap : Nat) (fd path : String) (file_size : Int)
    (read_files : List (String × ReadFileInfo)) (episode_cache : EpisodeCache)
    (now : ℚ) : FileTransferInfo × EpisodeCache :=
  let filename := pathName path
  let current_pos := file_size
  let read_files_sizes := read_files.map (fun p => (p.1, p.2.size))
  match find_matching_source cap filename read_files_sizes episode_cache with
  | (some t, c2) =>
    let source_path :=
      (read_files.find? (fun p => p.2.size == t)).map (fun p => p.2.path)
    (FileTransferInfo.init fd path current_pos file_size (some t) source_path
      now, c2)
  | (none, c2) =>
    match read_files with
    | [] =>
      (FileTransferInfo.init fd path current_pos file_size
        (some (max file_size 1)) none now, c2)
    | _ :: _ =>
      let t := maxSourceSize read_files
      let source_path :=
        (read_files.find? (fun p => p.2.size == t)).map (fun p => p.2.path)
      (FileTransferInfo.init fd path current_pos file_size (some t)
        source_path now, c2)

/-- One iteration of the `for fd_link in fd_dir.iterdir()` loop of
`get_open_files`: a read-only descriptor is recorded as a source candidate
(keyed by final path component, last write wins); a write or read-write
descriptor passes the ignore filter and becomes a tracked record keyed by
`f"{fd}_{filepath}"`. -/
def processEntry (cap : Nat) (now : ℚ) (st : ScanState) (e : FdEntry) :
    ScanState :=
  match e.mode with
  | AccessMode.read =>
    { st with
        read_files :=
          dictInsert st.read_files (pathName e.path)
            { size := e.size, path := e.path } }
  | _ =>
    if should_ignore_file e.path then st
    else
      let res := processWriteFile cap e.fd e.path e.size st.read_files
        st.episode_cache now
      { st with
          open_files :=
            dictInsert st.open_files (e.fd ++ "_" ++ e.path) res.1
          episode_cache := res.2 }

/-- `get_open_files`: a single pass over the enumerated descriptors,
categorizing each immediately. -/
def get_open_files (cap : Nat) (now : ℚ) (entries : List FdEntry)
    (episode_cache : EpisodeCache) : ScanState :=
  entries.foldl (processEntry cap now)
    { read_files := [], open_files := [], episode_cache := episode_cache }

/-- The source candidates contributed by the ReadOnly descriptors of a
snapshot fragment, keyed by final path component, last write wins (spec
`SourceCandidate`). -/
def readsOf (entries : List FdEntry) : List (String × ReadFileInfo) :=
  (entries.filter (fun e => e.mode == AccessMode.read)).foldl
    (fun r e => dictInsert r (pathName e.path) { size := e.size, path := e.path })
    []

/-- The transfer records reachable from snapshots with non-negative sizes:
a record is created by `get_open_files` with `position = size` (the current
file size) and a target estimate that is itself a snapshot size (hence
non-negative), and is then mutated only by `update` calls fed by later
snapshots. -/
inductive Reachable : FileTransferInfo → Prop
  | created (fd filepath : String) (size : Int) (target_size : Option Int)
      (source_filepath : Option String) (now : ℚ)
      (hsize : 0 ≤ size) (htarget : ∀ t, target_size = some t → 0 ≤ t) :
      Reachable (FileTransferInfo.init fd filepath size size target_size
        source_filepath now)
  | updated (r : FileTransferInfo) (position size : Int) (now : ℚ)
      (hsize : 0 ≤ size) :
      Reachable r → Reachable (r.update position size now)

/-! ## Helper lemmas about `FileTransferInfo.update` -/

/-- A negative reported size makes `update` a no-op. -/
theorem update_neg (r : FileTransferInfo) (p size : Int) (now : ℚ)
    (h : size < 0) : r.update p size now = r := by
  unfold FileTransferInfo.update
  rw [if_pos h]

/-- Explicit record form of `update` in the non-negative case. -/
theorem update_eq_of_nonneg (r : FileTransferInfo) (p size : Int) (now : ℚ)
    (h : ¬ size < 0) :
    r.update p size now =
      { r with
          target_size :=
            if size * 10 > r.target_size * 11 then size else r.target_size
          speed :=
            if now - r.last_time > 0 ∧ size - r.last_position > 0 then
              ((size - r.last_position : Int) : ℚ) / (now - r.last_time)
            else r.speed
          last_position := size
          position := size
          size := size
          last_time := now } := by
  unfold FileTransferInfo.update
  rw [if_neg h]
  dsimp only
  split_ifs <;> rfl

theorem update_target (r : FileTransferInfo) (p size : Int) (now : ℚ)
    (h : ¬ size < 0) :
    (r.update p size now).target_size =
      if size * 10 > r.target_size * 11 then size else r.target_size := by
  rw [update_eq_of_nonneg r p size now h]

theorem update_speed (r : FileTransferInfo) (p size : Int) (now : ℚ)
    (h : ¬ size < 0) :
    (r.update p size now).speed =
      if now - r.last_time > 0 ∧ size - r.last_position > 0 then
        ((size - r.last_position : Int) : ℚ) / (now - r.last_time)
      else r.speed := by
  rw [update_eq_of_nonneg r p size now h]

theorem update_last_position (r : FileTransferInfo) (p size : Int) (now : ℚ)
    (h : ¬ size < 0) : (r.update p size now).last_position = size := by
  rw [update_eq_of_nonneg r p size now h]

theorem update_position (r : FileTransferInfo) (p size : Int) (now : ℚ)
    (h : ¬ size < 0) : (r.update p size now).position = size := by
  rw [update_eq_of_nonneg r p size now h]

/-! ## Helper lemmas about the scan pass -/

/-- `processEntry` touches `read_files` only for read-only descriptors. -/
theorem processEntry_read_files (cap : Nat) (now : ℚ) (st : ScanState)
    (e : FdEntry) :
    (processEntry cap now st e).read_files =
      if e.mode == AccessMode.read then
        dictInsert st.read_files (pathName e.path)
          { size := e.size, path := e.path }
      else st.read_files := by
  rcases e with ⟨fd, path, size, mode⟩
  cases mode <;> simp only [processEntry] <;> first
    | rfl
    | (split <;> rfl)

/-- The `read_files` component of the scan is exactly the fold of the
read-only descriptors seen so far. -/
theorem foldl_processEntry_read_files (cap : Nat) (now : ℚ)
    (s : List FdEntry) :
    ∀ st : ScanState,
      ((s.foldl (processEntry cap now) st).read_files) =
        (s.filter (fun e => e.mode == AccessMode.read)).foldl
          (fun r e =>
            dictInsert r (pathName e.path) { size := e.size, path := e.path })
          st.read_files := by
  induction s with
  | nil => intro st; rfl
  | cons e tl ih =>
    intro st
    rw [List.foldl_cons, ih, processEntry_read_files]
    by_cases hm : e.mode == AccessMode.read
    · simp [List.filter_cons, hm]
    · simp [List.filter_cons, hm]

/-- The sources accumulated by `get_open_files` over a snapshot fragment are
exactly `readsOf` of that fragment. -/
theorem get_open_files_read_files (cap : Nat) (now : ℚ) (s : List FdEntry)
    (cache : EpisodeCache) :
    (get_open_files cap now s cache).read_files = readsOf s := by
  unfold get_open_files readsOf
  rw [foldl_processEntry_read_files]

/-- With no read candidates at all, the source matcher returns no match
(and only the destination's own episode key gets cached). -/
theorem find_matching_source_nil (cap : Nat) (fn : String)
    (cache : EpisodeCache) :
    find_matching_source cap fn [] cache =
      (none, cacheEnsure cap cache fn) := by
  unfold find_matching_source
  dsimp only [List.find?]
  rcases hd : dictGet? (cacheEnsure cap cache fn) fn with _ | ep
  · rfl
  · rcases ep with _ | ep
    · rfl
    · rfl

/-! ## Helper lemmas about the episode cache -/

/-- While the cache stays under capacity, folding `cacheEnsure` over fresh,
pairwise-distinct names appends one computed entry per name, in order. -/
theorem foldl_cacheEnsure_no_evict (cap : Nat) :
    ∀ (names : List String) (c : EpisodeCache),
      c.length + names.length ≤ cap → names.Nodup →
      (∀ k ∈ names, dictHas c k = false) →
      names.foldl (cacheEnsure cap) c =
        c ++ names.map (fun k => (k, extract_episode_info k)) := by
  intro names
  induction names with
  | nil => intro c _ _ _; simp
  | cons k tl ih =>
    intro c hlen hnodup hfresh
    have hk : dictHas c k = false := hfresh k (by simp)
    have hlt : ¬ cap ≤ c.length := by
      simp only [List.length_cons] at hlen
      omega
    have hstep : cacheEnsure cap c k = c ++ [(k, extract_episode_info k)] := by
      unfold cacheEnsure cachePut
      rw [hk, if_neg hlt]
      rfl
    rw [List.foldl_cons, hstep, ih]
    · simp
    · simp only [List.length_cons] at hlen
      simp only [List.length_append, List.length_cons, List.length_nil]
      omega
    · exact (List.nodup_cons.mp hnodup).2
    · intro k' hk'
      have hne : k ≠ k' := by
        intro hkk
        exact (List.nodup_cons.mp hnodup).1 (hkk ▸ hk')
      unfold dictHas
      rw [List.any_append]
      have h1 : (c.any fun p => p.1 == k') = false := hfresh k' (by simp [hk'])
      have h2 : ([(k, extract_episode_info k)].any fun p => p.1 == k') =
          false := by
        simp [hne]
      rw [h1, h2]
      rfl

/-- A name that is not a key of the cache. -/
theorem dictHas_map_self (l : List String) (n : String) (h : n ∉ l) :
    dictHas (l.map (fun k => (k, extract_episode_info k))) n = false := by
  unfold dictHas
  rw [List.any_eq_false]
  intro p hp
  rcases List.mem_map.mp hp with ⟨k, hkl, rfl⟩
  simp only [Bool.not_eq_true, beq_eq_false_iff_ne, ne_eq]
  intro hkn
  exact h (hkn ▸ hkl)

/-- `dictGet?` misses on a cache whose keys avoid the queried name. -/
theorem dictGet?_map_self (l : List String) (n : String) (h : n ∉ l) :
    dictGet? (l.map (fun k => (k, extract_episode_info k))) n = none := by
  unfold dictGet?
  have hfind :
      (l.map (fun k => (k, extract_episode_info k))).find?
        (fun p => p.1 == n) = none := by
    rw [List.find?_eq_none]
    intro p hp
    rcases List.mem_map.mp hp with ⟨k, hkl, rfl⟩
    simp only [Bool.not_eq_true, beq_eq_false_iff_ne, ne_eq]
    intro hkn
    exact h (hkn ▸ hkl)
  rw [hfind]
  rfl

/-! ## Helper lemmas about reachable records -/

/-- Every reachable record has a non-negative position. -/
theorem reachable_position_nonneg (r : FileTransferInfo) (h : Reachable r) :
    0 ≤ r.position := by
  induction h with
  | created fd filepath size target_size source_filepath now hsize htarget =>
    exact hsize
  | updated r position size now hsize hr ih =>
    by_cases hneg : size < 0
    · rw [update_neg r position size now hneg]
      exact ih
    · rw [update_position r position size now hneg]
      exact hsize

/-! ## Claim theorems -/

/-- C5 (confirmed): for every TransferRecord and every update applied to it,
`target_size` after the update is greater than or equal to `target_size`
before it — the target only ever moves upward. -/
theorem c5_target_size_monotone (r : FileTransferInfo) (position size : Int)
    (now : ℚ) : r.target_size ≤ (r.update position size now).target_size := by
  by_cases h : size < 0
  · rw [update_neg r position size now h]
  · rw [update_target r position size now h]
    split
    · rename_i hx
      omega
    · exact le_refl _

/-- C8 (confirmed): calling `update` with a negative size leaves the record
entirely unchanged (every field retains its prior value) and, being a total
function, raises no error. -/
theorem c8_negative_size_is_noop (r : FileTransferInfo) (position size : Int)
    (now : ℚ) (h : size < 0) : r.update position size now = r :=
  update_neg r position size now h

/-- Witness for C8 at a concrete record and a negative size. -/
theorem c8_witness :
    ((-2 : Int) < 0) ∧
      (FileTransferInfo.init "1" "/d/f.mkv" 3 3 none none 0).update 5 (-2) 1 =
        FileTransferInfo.init "1" "/d/f.mkv" 3 3 none none 0 :=
  ⟨by decide, c8_negative_size_is_noop _ 5 (-2) 1 (by decide)⟩

/-- C4 counterexample: a record created at position 0 (target 100) and then
reconciled twice in a row with the same unchanged snapshot (size 50, at
times 1 and 2) reports throughput 50 ≠ 0 after the second identical
update — `update` never recomputes the speed when no bytes were written, it
retains the stale value (the target size is indeed unchanged). -/
theorem c4_counterexample_stale_throughput :
    (((FileTransferInfo.init "4" "/d/f.mkv" 0 0 (some 100) none 0).update
          50 50 1).update 50 50 2).speed = 50 ∧
    ¬ (((FileTransferInfo.init "4" "/d/f.mkv" 0 0 (some 100) none 0).update
          50 50 1).update 50 50 2).speed = 0 ∧
    (((FileTransferInfo.init "4" "/d/f.mkv" 0 0 (some 100) none 0).update
          50 50 1).update 50 50 2).target_size =
      ((FileTransferInfo.init "4" "/d/f.mkv" 0 0 (some 100) none 0).update
          50 50 1).target_size := by
  norm_num [FileTransferInfo.update, FileTransferInfo.init]

/-- C4 (corrected): updating a record twice with the same size leaves both
the throughput and the target size of the second update unchanged from the
first — the speed is not recomputed when no bytes were written (so it is 0
after the second call only if it was already 0), and the target size does
not move. -/
theorem c4_amended_second_update_keeps_speed_and_target
    (r : FileTransferInfo) (p1 p2 size : Int) (t1 t2 : ℚ) :
    ((r.update p1 size t1).update p2 size t2).speed =
        (r.update p1 size t1).speed ∧
      ((r.update p1 size t1).update p2 size t2).target_size =
        (r.update p1 size t1).target_size := by
  by_cases h : size < 0
  · rw [update_neg r p1 size t1 h, update_neg r p2 size t2 h]
    exact ⟨rfl, rfl⟩
  · constructor
    · rw [update_speed _ p2 size t2 h, update_last_position r p1 size t1 h]
      rw [if_neg]
      intro hc
      exact absurd hc.2 (by omega)
    · rw [update_target _ p2 size t2 h, update_target r p1 size t1 h]
      by_cases hx : size * 10 > r.target_size * 11
      · rw [if_pos hx, ite_self]
      · rw [if_neg hx, if_neg hx]

/-- C3 counterexample: a snapshot whose write destination `a.mkv` has an
exact case-insensitive source match `A.MKV` of size 0 produces a
TransferRecord persisted with `target_size = 0`. -/
theorem c3_counterexample_zero_target :
    (processWriteFile 1000 "3" "/dl/a.mkv" 0
        [("A.MKV", { size := 0, path := "/r/A.MKV" })] [] 0).1.target_size
        = 0 ∧
    ¬ 0 < (processWriteFile 1000 "3" "/dl/a.mkv" 0
        [("A.MKV", { size := 0, path := "/r/A.MKV" })] [] 0).1.target_size := by
  decide

/-- C3 (corrected): `target_size` is strictly positive at creation whenever
the snapshot has no read candidates at all (the `max(file_size, 1)`
fallback), and `update` never turns a positive target size non-positive;
but a matched source of size 0 does yield a persisted target size of 0. -/
theorem c3_amended_positivity :
    (∀ (cap : Nat) (fd path : String) (file_size : Int)
        (cache : EpisodeCache) (now : ℚ),
        0 < (processWriteFile cap fd path file_size [] cache
            now).1.target_size) ∧
    (∀ (r : FileTransferInfo) (p s : Int) (t : ℚ),
        0 < r.target_size → 0 < (r.update p s t).target_size) := by
  constructor
  · intro cap fd path file_size cache now
    unfold processWriteFile
    simp only [List.map_nil]
    rw [find_matching_source_nil]
    dsimp only
    exact lt_max_of_lt_right Int.one_pos
  · intro r p s t h
    by_cases hneg : s < 0
    · rw [update_neg r p s t hneg]
      exact h
    · rw [update_target r p s t hneg]
      split
      · rename_i hx
        omega
      · exact h

/-- Witness for C3 (amended) at concrete inputs. -/
theorem c3_amended_witness :
    0 < (processWriteFile 1000 "9" "/dl/m.mkv" 500 [] [] 0).1.target_size ∧
      0 < (FileTransferInfo.init "1" "/d/f.mkv" 3 3 (some 7) none
          0).target_size ∧
      0 < ((FileTransferInfo.init "1" "/d/f.mkv" 3 3 (some 7) none 0).update
          4 4 1).target_size :=
  ⟨c3_amended_positivity.1 1000 "9" "/dl/m.mkv" 500 [] 0,
   by decide,
   c3_amended_positivity.2 _ 4 4 1 (by decide)⟩

/-- C9 (confirmed): for every TransferRecord reachable by a creation and any
sequence of updates fed by non-negative snapshot sizes, the derived
`percent` value lies in the closed interval [0, 100]. -/
theorem c9_percent_in_range (r : FileTransferInfo) (h : Reachable r) :
    0 ≤ r.percent ∧ r.percent ≤ 100 := by
  have hp : 0 ≤ r.position := reachable_position_nonneg r h
  unfold FileTransferInfo.percent
  split
  · rename_i ht
    constructor
    · apply le_min
      · apply mul_nonneg
        · apply div_nonneg
          · exact_mod_cast hp
          · exact_mod_cast le_of_lt ht
        · norm_num
      · norm_num
    · exact min_le_right _ _
  · norm_num

/-- Witness for C9 at a concrete reachable record. -/
theorem c9_witness :
    0 ≤ ((FileTransferInfo.init "1" "/d/e.mkv" 0 0 (some 10) none 0).update
        4 4 1).percent ∧
      ((FileTransferInfo.init "1" "/d/e.mkv" 0 0 (some 10) none 0).update
        4 4 1).percent ≤ 100 :=
  c9_percent_in_range _
    (Reachable.updated _ 4 4 1 (by decide)
      (Reachable.created "1" "/d/e.mkv" 0 (some 10) none 0 (by decide)
        (fun t ht => by
          injection ht with h2
          omega)))

/-- C1 counterexample: destination `x.bin` matches no source by name or
episode, one read candidate `s.mkv` of size 5 exists — the record's target
size becomes 5 (the maximum source size) but its source path is set to
`/r/s.mkv`, not left unset as the claim states. -/
theorem c1_counterexample_source_path_set :
    (find_matching_source 1000 (pathName "/dl/x.bin") [("s.mkv", 5)] []).1
        = none ∧
    (processWriteFile 1000 "7" "/dl/x.bin" 2
        [("s.mkv", { size := 5, path := "/r/s.mkv" })] [] 0).1.target_size
        = 5 ∧
    (processWriteFile 1000 "7" "/dl/x.bin" 2
        [("s.mkv", { size := 5, path := "/r/s.mkv" })] []
        0).1.source_filepath = some "/r/s.mkv" ∧
    ¬ (processWriteFile 1000 "7" "/dl/x.bin" 2
        [("s.mkv", { size := 5, path := "/r/s.mkv" })] []
        0).1.source_filepath = none := by
  decide

/-- C1 (corrected): when source matching finds no exact or episode match but
at least one read candidate exists, the target size is the maximum source
size across all candidates and the source path is set to the path of the
first read candidate (in enumeration order) whose size equals that maximum —
it is not left unset. -/
theorem c1_amended_largest_fallback (cap : Nat) (fd path : String)
    (file_size : Int) (reads : List (String × ReadFileInfo))
    (cache : EpisodeCache) (now : ℚ)
    (h1 : (find_matching_source cap (pathName path)
        (reads.map (fun p => (p.1, p.2.size))) cache).1 = none)
    (h2 : reads ≠ []) :
    (processWriteFile cap fd path file_size reads cache now).1.target_size =
        maxSourceSize reads ∧
      (processWriteFile cap fd path file_size reads cache
          now).1.source_filepath =
        (reads.find? (fun p => p.2.size == maxSourceSize reads)).map
          (fun p => p.2.path) := by
  have hfm : find_matching_source cap (pathName path)
      (reads.map (fun p => (p.1, p.2.size))) cache =
      (none, (find_matching_source cap (pathName path)
        (reads.map (fun p => (p.1, p.2.size))) cache).2) :=
    Prod.ext_iff.mpr ⟨h1, rfl⟩
  cases reads with
  | nil => exact absurd rfl h2
  | cons p rest =>
    unfold processWriteFile
    dsimp only
    rw [hfm]
    exact ⟨rfl, rfl⟩

/-- Witness for C1 (amended) at a concrete snapshot. -/
theorem c1_amended_witness :
    (processWriteFile 1000 "7" "/dl/y.bin" 2
        [("t.mkv", { size := 8, path := "/r/t.mkv" })] [] 0).1.target_size =
        maxSourceSize [("t.mkv", { size := 8, path := "/r/t.mkv" })] ∧
      (processWriteFile 1000 "7" "/dl/y.bin" 2
          [("t.mkv", { size := 8, path := "/r/t.mkv" })] []
          0).1.source_filepath =
        ([("t.mkv", ({ size := 8, path := "/r/t.mkv" } : ReadFileInfo))].find?
            (fun p => p.2.size ==
              maxSourceSize
                [("t.mkv", { size := 8, path := "/r/t.mkv" })])).map
          (fun p => p.2.path) :=
  c1_amended_largest_fallback 1000 "7" "/dl/y.bin" 2 _ [] 0 (by decide)
    (by decide)

/-- C2 counterexample: the same two descriptors (write `dest.mkv` size 10,
read `dest.mkv` size 100) yield different match results depending on
enumeration order — when the write descriptor is enumerated first, the read
candidate that would match exactly is invisible to it (target 10, no
source); enumerated after the read descriptor, it matches (target 100,
source set).  Matching is therefore not performed against the complete
sources map of the snapshot. -/
theorem c2_counterexample_order_dependent :
    (dictGet? (get_open_files 1000 0
          [⟨"4", "/dl/dest.mkv", 10, AccessMode.write⟩,
           ⟨"5", "/src/dest.mkv", 100, AccessMode.read⟩] []).open_files
        "4_/dl/dest.mkv").map (fun i => i.target_size) = some 10 ∧
    (dictGet? (get_open_files 1000 0
          [⟨"4", "/dl/dest.mkv", 10, AccessMode.write⟩,
           ⟨"5", "/src/dest.mkv", 100, AccessMode.read⟩] []).open_files
        "4_/dl/dest.mkv").map (fun i => i.source_filepath) = some none ∧
    (dictGet? (get_open_files 1000 0
          [⟨"5", "/src/dest.mkv", 100, AccessMode.read⟩,
           ⟨"4", "/dl/dest.mkv", 10, AccessMode.write⟩] []).open_files
        "4_/dl/dest.mkv").map (fun i => i.target_size) = some 100 ∧
    (dictGet? (get_open_files 1000 0
          [⟨"5", "/src/dest.mkv", 100, AccessMode.read⟩,
           ⟨"4", "/dl/dest.mkv", 10, AccessMode.write⟩] []).open_files
        "4_/dl/dest.mkv").map (fun i => i.source_filepath) =
      some (some "/src/dest.mkv") := by
  decide

/-- C2 (corrected): in the single enumeration pass of `get_open_files`, the
sources a write candidate is matched against are exactly the ReadOnly
descriptors enumerated before it — the pass decomposes around the write
entry, the sources accumulated at that point are `readsOf` of the preceding
fragment, and the record created for the write entry is computed from those
sources only (descriptors enumerated later are not candidates). -/
theorem c2_amended_sources_are_prior_reads (cap : Nat) (now : ℚ)
    (cache : EpisodeCache) (s1 s2 : List FdEntry) (e : FdEntry)
    (hmode : e.mode ≠ AccessMode.read)
    (hig : should_ignore_file e.path = false) :
    get_open_files cap now (s1 ++ e :: s2) cache =
        s2.foldl (processEntry cap now)
          (processEntry cap now (get_open_files cap now s1 cache) e) ∧
      (get_open_files cap now s1 cache).read_files = readsOf s1 ∧
      (processEntry cap now (get_open_files cap now s1 cache) e).open_files =
        dictInsert (get_open_files cap now s1 cache).open_files
          (e.fd ++ "_" ++ e.path)
          (processWriteFile cap e.fd e.path e.size (readsOf s1)
            (get_open_files cap now s1 cache).episode_cache now).1 := by
  refine ⟨?_, get_open_files_read_files cap now s1 cache, ?_⟩
  · unfold get_open_files
    rw [List.foldl_append, List.foldl_cons]
  · have hrf := get_open_files_read_files cap now s1 cache
    rcases e with ⟨fd, path, size, mode⟩
    cases mode with
    | read => exact absurd rfl hmode
    | write =>
      unfold processEntry
      dsimp only
      rw [if_neg (by simp [hig]), hrf]
    | readWrite =>
      unfold processEntry
      dsimp only
      rw [if_neg (by simp [hig]), hrf]

/-- Witness for C2 (amended) at a concrete snapshot decomposition. -/
theorem c2_amended_witness :
    get_open_files 1000 0
        ([⟨"5", "/src/d.mkv", 100, AccessMode.read⟩] ++
          ⟨"4", "/dl/d.mkv", 10, AccessMode.write⟩ :: []) [] =
        List.foldl (processEntry 1000 0)
          (processEntry 1000 0
            (get_open_files 1000 0
              [⟨"5", "/src/d.mkv", 100, AccessMode.read⟩] [])
            ⟨"4", "/dl/d.mkv", 10, AccessMode.write⟩) [] ∧
      (get_open_files 1000 0
          [⟨"5", "/src/d.mkv", 100, AccessMode.read⟩] []).read_files =
        readsOf [⟨"5", "/src/d.mkv", 100, AccessMode.read⟩] ∧
      (processEntry 1000 0
          (get_open_files 1000 0
            [⟨"5", "/src/d.mkv", 100, AccessMode.read⟩] [])
          ⟨"4", "/dl/d.mkv", 10, AccessMode.write⟩).open_files =
        dictInsert
          (get_open_files 1000 0
            [⟨"5", "/src/d.mkv", 100, AccessMode.read⟩] []).open_files
          ("4" ++ "_" ++ "/dl/d.mkv")
          (processWriteFile 1000 "4" "/dl/d.mkv" 10
            (readsOf [⟨"5", "/src/d.mkv", 100, AccessMode.read⟩])
            (get_open_files 1000 0
              [⟨"5", "/src/d.mkv", 100, AccessMode.read⟩] []).episode_cache
            0).1 :=
  c2_amended_sources_are_prior_reads 1000 0 []
    [⟨"5", "/src/d.mkv", 100, AccessMode.read⟩] []
    ⟨"4", "/dl/d.mkv", 10, AccessMode.write⟩ (by decide) (by decide)

/-- C6 (confirmed): whenever some source's filename equals the destination
filename case-insensitively, `find_matching_source` returns the size of the
first such source and leaves the episode cache completely untouched —
neither episode matching nor any fallback is consulted. -/
theorem c6_exact_match_short_circuits (cap : Nat) (dest : String)
    (reads : List (String × Int)) (cache : EpisodeCache) (p : String × Int)
    (h : reads.find? (fun q => strLower q.1 == strLower dest) = some p) :
    find_matching_source cap dest reads cache = (some p.2, cache) := by
  unfold find_matching_source
  dsimp only
  rw [h]

/-- Witness for C6: the exact match (size 7) wins and the cache stays empty
even though an episode match exists (`Other.S01E05.mkv`, size 9, same
episode key as the destination). -/
theorem c6_witness :
    find_matching_source 1000 "show.s01e05.mkv"
        [("Other.S01E05.mkv", 9), ("SHOW.S01E05.MKV", 7)] [] = (some 7, []) ∧
      extract_episode_info "Other.S01E05.mkv" =
        extract_episode_info "show.s01e05.mkv" ∧
      extract_episode_info "Other.S01E05.mkv" = some (1, 5) :=
  ⟨c6_exact_match_short_circuits 1000 "show.s01e05.mkv" _ []
      ("SHOW.S01E05.MKV", 7) (by decide),
   by decide, by decide⟩

/-- C7 (confirmed): folding `cacheEnsure` over `N + 1` pairwise-distinct
fresh filenames starting from the empty cache of capacity `N ≥ 1` leaves
exactly `N` entries — the cache is precisely the last `N` names each mapped
to its computed episode key, the first-inserted name has been evicted, its
lookup now misses, and a subsequent `cacheEnsure` for it goes down the
recompute-and-insert path rather than returning a cached entry. -/
theorem c7_fifo_eviction (cap : Nat) (n : String) (rest : List String)
    (hcap : 1 ≤ cap) (hlen : rest.length = cap)
    (hnodup : (n :: rest).Nodup) :
    ((n :: rest).foldl (cacheEnsure cap) []).length = cap ∧
      (n :: rest).foldl (cacheEnsure cap) [] =
        rest.map (fun k => (k, extract_episode_info k)) ∧
      dictGet? ((n :: rest).foldl (cacheEnsure cap) []) n = none ∧
      cacheEnsure cap ((n :: rest).foldl (cacheEnsure cap) []) n =
        cachePut cap ((n :: rest).foldl (cacheEnsure cap) []) n
          (extract_episode_info n) := by
  have hnin : n ∉ rest := (List.nodup_cons.mp hnodup).1
  have hrest : rest.Nodup := (List.nodup_cons.mp hnodup).2
  have key : (n :: rest).foldl (cacheEnsure cap) [] =
      rest.map (fun k => (k, extract_episode_info k)) := by
    rcases List.eq_nil_or_concat rest with hr | ⟨ys, z, hz⟩
    · rw [hr] at hlen
      simp at hlen
      omega
    · rw [List.concat_eq_append] at hz
      subst hz
      have hys : ys.length + 1 = cap := by
        simpa using hlen
      obtain ⟨hysnodup, _, hdisj⟩ := List.nodup_append.mp hrest
      have hznotys : z ∉ ys := fun hy => hdisj hy (by simp)
      have hninys : n ∉ ys := fun hy => hnin (List.mem_append_left _ hy)
      have hnz : n ≠ z := fun he => hnin (by simp [he])
      have h0 : cacheEnsure cap [] n = [(n, extract_episode_info n)] := by
        unfold cacheEnsure
        rw [if_neg (by simp [dictHas])]
        unfold cachePut
        rw [if_neg (by simp only [List.length_nil]; omega)]
        rfl
      have hfold : List.foldl (cacheEnsure cap)
          [(n, extract_episode_info n)] ys =
          (n, extract_episode_info n) ::
            ys.map (fun k => (k, extract_episode_info k)) := by
        rw [foldl_cacheEnsure_no_evict cap ys [(n, extract_episode_info n)]]
        · rfl
        · simp only [List.length_cons, List.length_nil]
          omega
        · exact hysnodup
        · intro k hk
          have hne : n ≠ k := fun he => hninys (he ▸ hk)
          simp [dictHas, hne]
      have hzfresh : dictHas ((n, extract_episode_info n) ::
          ys.map (fun k => (k, extract_episode_info k))) z = false := by
        have h2 := dictHas_map_self ys z hznotys
        unfold dictHas at h2 ⊢
        simp only [List.any_cons, h2, Bool.or_false]
        simp [hnz]
      have hlast : cacheEnsure cap ((n, extract_episode_info n) ::
          ys.map (fun k => (k, extract_episode_info k))) z =
          (ys ++ [z]).map (fun k => (k, extract_episode_info k)) := by
        unfold cacheEnsure
        rw [if_neg (by simp [hzfresh])]
        unfold cachePut
        rw [if_pos (by simp only [List.length_cons, List.length_map]; omega)]
        simp
      rw [List.foldl_cons, h0, List.foldl_append, hfold, List.foldl_cons,
        List.foldl_nil, hlast]
  have hmiss : dictHas (rest.map (fun k => (k, extract_episode_info k))) n =
      false := dictHas_map_self rest n hnin
  refine ⟨?_, key, ?_, ?_⟩
  · rw [key, List.length_map, hlen]
  · rw [key]
    exact dictGet?_map_self rest n hnin
  · rw [key]
    unfold cacheEnsure
    rw [if_neg (by simp [hmiss])]

/-- Witness for C7 at capacity 2 with three distinct names. -/
theorem c7_witness :
    ((["a", "b", "c"] : List String).foldl (cacheEnsure 2) []).length = 2 ∧
      (["a", "b", "c"] : List String).foldl (cacheEnsure 2) [] =
        ["b", "c"].map (fun k => (k, extract_episode_info k)) ∧
      dictGet? ((["a", "b", "c"] : List String).foldl (cacheEnsure 2) []) "a"
        = none ∧
      cacheEnsure 2 ((["a", "b", "c"] : List String).foldl (cacheEnsure 2) [])
          "a" =
        cachePut 2 ((["a", "b", "c"] : List String).foldl (cacheEnsure 2) [])
          "a" (extract_episode_info "a") :=
  c7_fifo_eviction 2 "a" ["b", "c"] (by decide) (by decide) (by decide)

/-- C10 (confirmed): when the source matcher returns a size, the source path
recorded in the new record is found by scanning the read candidates for the
first one whose size equals the returned size; consequently, in a snapshot
with two equal-sized read candidates where the second matches by exact name,
the recorded source path is that of the *first* candidate, a different
file. -/
theorem c10_source_path_by_size_scan :
    (∀ (cap : Nat) (fd path : String) (file_size t : Int)
        (reads : List (String × ReadFileInfo)) (cache : EpisodeCache)
        (now : ℚ),
        (find_matching_source cap (pathName path)
            (reads.map (fun p => (p.1, p.2.size))) cache).1 = some t →
        (processWriteFile cap fd path file_size reads cache
            now).1.source_filepath =
          (reads.find? (fun p => p.2.size == t)).map (fun p => p.2.path)) ∧
      ((find_matching_source 1000 (pathName "/dl/B.MKV")
          [("a.mkv", 5), ("b.mkv", 5)] []).1 = some 5 ∧
        [("a.mkv", (5 : Int)), ("b.mkv", 5)].find?
            (fun p => strLower p.1 == strLower "B.MKV") = some ("b.mkv", 5) ∧
        (processWriteFile 1000 "9" "/dl/B.MKV" 1
            [("a.mkv", { size := 5, path := "/r/a.mkv" }),
             ("b.mkv", { size := 5, path := "/r/b.mkv" })] []
            0).1.source_filepath = some "/r/a.mkv" ∧
        ("/r/a.mkv" : String) ≠ "/r/b.mkv") := by
  constructor
  · intro cap fd path file_size t reads cache now h1
    have hfm : find_matching_source cap (pathName path)
        (reads.map (fun p => (p.1, p.2.size))) cache =
        (some t, (find_matching_source cap (pathName path)
          (reads.map (fun p => (p.1, p.2.size))) cache).2) :=
      Prod.ext_iff.mpr ⟨h1, rfl⟩
    unfold processWriteFile
    dsimp only
    rw [hfm]
    rfl
  · decide

/-- Witness for C10 at the concrete two-candidate snapshot. -/
theorem c10_witness :
    (processWriteFile 1000 "9" "/dl/B.MKV" 1
        [("a.mkv", { size := 5, path := "/r/a.mkv" }),
         ("b.mkv", { size := 5, path := "/r/b.mkv" })] []
        0).1.source_filepath =
      ([("a.mkv", ({ size := 5, path := "/r/a.mkv" } : ReadFileInfo)),
        ("b.mkv", { size := 5, path := "/r/b.mkv" })].find?
          (fun p => p.2.size == 5)).map (fun p => p.2.path) :=
  c10_source_path_by_size_scan.1 1000 "9" "/dl/B.MKV" 1 5 _ [] 0 (by decide)

end ArrMonitor
